import Mathlib

/-
Shallow embedding of pants/stream.py (class Stream).

Modelling conventions:
* Byte strings are `List Char` (Python 2 `str`).
* The socket handle is `Option Sock`: `none` models `self._socket is None`
  (the `closed()` predicate).  A `Sock` carries the addresses that
  `getsockname()` / `getpeername()` would report; addresses are
  `Option (Nat × Nat)` where `none` models the `(None, None)` tuple.
* The external non-blocking socket primitives (send/recv/accept and the
  pending-error query) are oracles: their results are passed in as
  parameters.  `res : Option Nat` for a send is `some bytes_sent` on
  success and `none` when the primitive raises `socket.error`.
* Observable effects (callback firings, bytes accepted by the send
  primitive, log records) are recorded in an `events` trace.
* A Python exception escaping a handler is modelled with `Except`:
  `Except.error` carries the data of the exception together with the
  stream state at the moment the exception propagates.
* `Engine.instance().remove_channel`, `_wait_for_write()` and the
  best-effort `setsockopt` calls touch only the reactor / OS, never the
  stream's own state, so they have no counterpart in the state model.
-/

set_option linter.unusedVariables false

namespace Pants

/-- A live socket handle, carrying the addresses the OS would report for
it: `sockname` is the locally bound address, `peername` the remote one.
Addresses are modelled as (host-id, port) pairs of naturals. -/
structure Sock where
  sockname : Nat × Nat
  peername : Nat × Nat
deriving DecidableEq

/-- The framing selector `read_delimiter`: Python `None` (raw), an
`int`/`long` (fixed length), a `basestring` (terminator), or anything
else (invalid, hits the warn-and-break arm). -/
inductive ReadDelimiter where
  | raw : ReadDelimiter
  | fixed : Nat → ReadDelimiter
  | term : List Char → ReadDelimiter
  | invalid : ReadDelimiter
deriving DecidableEq

/-- Observable effects recorded in order: callback firings, the bytes the
send primitive accepted, best-effort closes of accepted handles, and log
records (`log.warning` / `log.exception`). -/
inductive Event where
  | onClose : Event
  | onConnect : Event
  | onWriteFired : Event
  | onAccept : Nat → Nat × Nat → Event
  | sent : List Char → Event
  | sockClosed : Nat → Event
  | logWarning : Event
  | logError : Event
deriving DecidableEq

/-- The `on_write` callback attribute: the default no-op handler, or
`self.close` after `end()` has installed it (`self.on_write = self.close`). -/
inductive OnWriteCb where
  | default : OnWriteCb
  | closeFn : OnWriteCb
deriving DecidableEq

/-- State of a `Stream`, field for field from `Stream.__init__` /
`Channel`: `_socket`, the three lifecycle flags, both buffers, the
framing selector, the derived addresses, the mutable `on_write` slot,
plus the event trace. -/
structure Stream where
  _socket : Option Sock
  _connected : Bool
  _connecting : Bool
  _listening : Bool
  _recv_buffer : List Char
  read_delimiter : ReadDelimiter
  _send_buffer : List Char
  remote_addr : Option (Nat × Nat)
  local_addr : Option (Nat × Nat)
  on_write : OnWriteCb
  events : List Event
deriving DecidableEq

/-- `Stream.closed()`: `self._socket is None`. -/
def closed (s : Stream) : Bool := s._socket.isNone

/-- `Stream.active()`: `not self.closed() and (self._listening or self._connected or self._connecting)`. -/
def active (s : Stream) : Bool :=
  !(closed s) && (s._listening || s._connected || s._connecting)

/-- `Stream._update_addr()`: recompute `remote_addr`/`local_addr` from the
current flags and the socket's reported addresses.  The `none` socket
branches are unreachable on the code's own paths (the flags are only set
while a socket is present). -/
def _update_addr (s : Stream) : Stream :=
  if s._connected then
    match s._socket with
    | some sk => { s with remote_addr := some sk.peername, local_addr := some sk.sockname }
    | none => s
  else if s._listening then
    match s._socket with
    | some sk => { s with remote_addr := none, local_addr := some sk.sockname }
    | none => s
  else
    { s with remote_addr := none, local_addr := none }

/-- `Stream.close()`: no-op when already closed; otherwise deregister
(reactor-only), close the handle, clear the flags, both buffers and the
delimiter, refresh addresses, and fire `on_close`. -/
def close (s : Stream) : Stream :=
  if closed s then s
  else
    let s1 : Stream :=
      { s with _socket := none, _connected := false, _connecting := false,
               _listening := false, _recv_buffer := [],
               read_delimiter := ReadDelimiter.raw, _send_buffer := [] }
    let s2 := _update_addr s1
    { s2 with events := s2.events ++ [Event.onClose] }

/-- `Stream.end()` (named `end'` because `end` is reserved in Lean):
no-op when closed; `close()` at once when the send buffer is empty; else
install `close` as the `on_write` continuation. -/
def end' (s : Stream) : Stream :=
  if closed s then s
  else if s._send_buffer = [] then close s
  else { s with on_write := OnWriteCb.closeFn }

/-- `self._safely_call(self.on_write)`: the default handler is a no-op
(recorded as an `onWriteFired` event); after `end()` the handler is
`self.close`. -/
def fireOnWrite (s : Stream) : Stream :=
  match s.on_write with
  | OnWriteCb.default => { s with events := s.events ++ [Event.onWriteFired] }
  | OnWriteCb.closeFn => close s

/-- `Stream._send(data, buffer_data)`.  `res` is the send primitive's
behaviour: `some k` means `_socket_send` returned `k`, `none` means it
raised `socket.error` (caught: log + close). -/
def _send (s : Stream) (data : List Char) (buffer_data : Bool) (res : Option Nat) : Stream :=
  if closed s then { s with events := s.events ++ [Event.logWarning] }
  else if !s._connected then { s with events := s.events ++ [Event.logWarning] }
  else if buffer_data || !(s._send_buffer.isEmpty) then
    { s with _send_buffer := s._send_buffer ++ data }
  else
    match res with
    | none => close { s with events := s.events ++ [Event.logError] }
    | some k =>
      let s1 : Stream := { s with events := s.events ++ [Event.sent (data.take k)] }
      if !((data.drop k).isEmpty) then { s1 with _send_buffer := s1._send_buffer ++ data.drop k }
      else fireOnWrite s1

/-- `Stream.write(data, buffer_data=False)`: delegates to `_send`. -/
def write (s : Stream) (data : List Char) (buffer_data : Bool) (res : Option Nat) : Stream :=
  _send s data buffer_data res

/-- `Stream._handle_connect_event()`.  `pendingErr` is what
`getsockopt(SOL_SOCKET, SO_ERROR)` reports.  Non-zero: the code raises
(`raise socket.error(err, errstr)`; in fact the message-formatting path
hits a `NameError` first because `os`/`errno` are never imported — either
way an exception propagates, modelled as `Except.error` carrying the
untouched stream).  Zero: `_update_addr()` runs, then the flags flip and
`on_connect` fires — note the address refresh happens while `_connected`
is still `False`. -/
def _handle_connect_event (s : Stream) (pendingErr : Nat) : Except (Nat × Stream) Stream :=
  if pendingErr ≠ 0 then Except.error (pendingErr, s)
  else
    let s1 := _update_addr s
    let s2 : Stream := { s1 with _connected := true, _connecting := false }
    Except.ok { s2 with events := s2.events ++ [Event.onConnect] }

/-- `Stream._handle_write_event()`.  `pendingErr` is consulted only on
the not-yet-connected path (connect completion); `res` is the send
primitive's behaviour for the flush of `_send_buffer`. -/
def _handle_write_event (s : Stream) (pendingErr : Nat) (res : Option Nat) :
    Except (Nat × Stream) Stream :=
  if s._listening then Except.ok { s with events := s.events ++ [Event.logWarning] }
  else
    match (if !s._connected then _handle_connect_event s pendingErr else Except.ok s) with
    | Except.error e => Except.error e
    | Except.ok s1 =>
      if s1._send_buffer.isEmpty then Except.ok s1
      else
        match res with
        | none => Except.ok (close { s1 with events := s1.events ++ [Event.logError] })
        | some k =>
          let s2 : Stream :=
            { s1 with events := s1.events ++ [Event.sent (s1._send_buffer.take k)],
                      _send_buffer := s1._send_buffer.drop k }
          if s2._send_buffer.isEmpty then Except.ok (fireOnWrite s2) else Except.ok s2

/-- `Stream.listen(port, host, backlog)`.  `bindListenOk` is the oracle
for `_socket_bind`/`_socket_listen` succeeding.  On success the code runs
`_update_addr()` and only afterwards sets `_listening = True`. -/
def listen (s : Stream) (bindListenOk : Bool) : Stream :=
  if active s then { s with events := s.events ++ [Event.logWarning] }
  else if !bindListenOk then close { s with events := s.events ++ [Event.logError] }
  else
    let s1 := _update_addr s
    { s1 with _listening := true }

/-- One result of the accept primitive inside the accept loop:
a connection `(handle, addr)`, the `None` sentinel, or a raised
`socket.error`. -/
inductive AcceptRes where
  | success : Nat → Nat × Nat → AcceptRes
  | sentinel : AcceptRes
  | failure : AcceptRes
deriving DecidableEq

/-- The body of `Stream._handle_accept_event`'s `while True` loop.
`prev` is the Python local `sock` from the previous iteration, if any.
On a primitive failure the code logs, then runs `sock.close()` inside a
`try/except socket.error`: when `prev` exists that closes the handle
accepted on the *previous* iteration; when it does not (first iteration)
`sock` is an unbound local and the lookup raises a `NameError`, which is
not a `socket.error` and escapes the handler (`Except.error`). -/
def acceptGo (s : Stream) (prev : Option Nat) : List AcceptRes → Except Stream Stream
  | [] => Except.ok s
  | AcceptRes.sentinel :: _ => Except.ok s
  | AcceptRes.success h a :: rs =>
    acceptGo { s with events := s.events ++ [Event.onAccept h a] } (some h) rs
  | AcceptRes.failure :: _ =>
    let s1 : Stream := { s with events := s.events ++ [Event.logError] }
    match prev with
    | some hnd => Except.ok { s1 with events := s1.events ++ [Event.sockClosed hnd] }
    | none => Except.error s1

/-- `Stream._handle_accept_event()`: run the accept loop against the
oracle sequence `rs` of primitive results, starting with no previously
accepted handle in scope. -/
def _handle_accept_event (s : Stream) (rs : List AcceptRes) : Except Stream Stream :=
  acceptGo s none rs

/-- `matchAt t s`: `t` matches at the head of `s` (i.e. `s[0:len(t)] == t`). -/
def matchAt : List Char → List Char → Bool
  | [], _ => true
  | _ :: _, [] => false
  | a :: ts, b :: ss => a == b && matchAt ts ss

/-- Python `s.find(t)`: index of the first match of `t` in `s`
(`none` for `-1`). -/
def strFind (t : List Char) : List Char → Option Nat
  | [] => if matchAt t [] then some 0 else none
  | c :: s =>
    if matchAt t (c :: s) then some 0
    else Option.map (fun i => i + 1) (strFind t s)

/-- One arm of `_process_recv_buffer`'s dispatch on the delimiter:
given the delimiter and the current buffer, either `none` (no complete
unit: wait for more data / invalid delimiter) or `some (data, rest)`,
the message delivered to `on_read` and the retained buffer. -/
def extractOne : ReadDelimiter → List Char → Option (List Char × List Char)
  | ReadDelimiter.raw, buf => some (buf, [])
  | ReadDelimiter.fixed n, buf =>
    if buf.length < n then none else some (buf.take n, buf.drop n)
  | ReadDelimiter.term t, buf =>
    match strFind t buf with
    | none => none
    | some mark => some (buf.take mark, buf.drop (mark + t.length))
  | ReadDelimiter.invalid, _ => none

/-- `Stream._process_recv_buffer()`.  `cb` is the owner's `on_read`
callback as a state transformer (it runs after the buffer has been
updated and may mutate the whole stream, e.g. `close()` it or reassign
`read_delimiter`).  The second component of the result is the trace of
messages delivered to `on_read` during this pass, in order.  `fuel`
bounds the recursion (the Python loop has no such bound; termination is
the subject of a separate theorem). -/
def _process_recv_buffer (cb : List Char → Stream → Stream) :
    Nat → Stream → Stream × List (List Char)
  | 0, s => (s, [])
  | fuel + 1, s =>
    if s._recv_buffer.isEmpty then (s, [])
    else if s.read_delimiter = ReadDelimiter.invalid then
      ({ s with events := s.events ++ [Event.logWarning] }, [])
    else
      match extractOne s.read_delimiter s._recv_buffer with
      | none => (s, [])
      | some (data, rest) =>
        let s1 := cb data { s with _recv_buffer := rest }
        if closed s1 || !s1._connected then (s1, [data])
        else
          let r := _process_recv_buffer cb fuel s1
          (r.1, data :: r.2)

/-- An operation on the outbound path: a `write(data, buffer_data)` call
with the send primitive's behaviour, or a write-readiness event with the
pending-error and send-primitive oracles. -/
inductive WOp where
  | write : List Char → Bool → Option Nat → WOp
  | wevent : Nat → Option Nat → WOp
deriving DecidableEq

/-- Apply one outbound operation. -/
def wstep (s : Stream) : WOp → Except (Nat × Stream) Stream
  | WOp.write d bd r => Except.ok (write s d bd r)
  | WOp.wevent e r => _handle_write_event s e r

/-- Run a sequence of outbound operations. -/
def wrun (s : Stream) : List WOp → Except (Nat × Stream) Stream
  | [] => Except.ok s
  | op :: ops =>
    match wstep s op with
    | Except.error e => Except.error e
    | Except.ok s1 => wrun s1 ops

/-- The operation's send primitive succeeded (returned a byte count
rather than raising). -/
def WOp.sendOk : WOp → Prop
  | WOp.write _ _ r => r.isSome = true
  | WOp.wevent _ r => r.isSome = true

/-- Concatenation, in call order, of the payloads of all `write` calls
in the sequence. -/
def writtenOf : List WOp → List Char
  | [] => []
  | WOp.write d _ _ :: ops => d ++ writtenOf ops
  | WOp.wevent _ _ :: ops => writtenOf ops

/-- The bytes the send primitive accepted, in order, as recorded in the
event trace. -/
def sentConcat : List Event → List Char
  | [] => []
  | Event.sent b :: evs => b ++ sentConcat evs
  | _ :: evs => sentConcat evs

/-- The stream configurations C2 quantifies over: open, Connected, not
listening, with the default `on_write` handler. -/
def GoodW (s : Stream) : Prop :=
  s._socket.isSome = true ∧ s._connected = true ∧ s._listening = false ∧
    s.on_write = OnWriteCb.default

/-- The delimiters under which each delivering iteration strictly
shrinks the buffer: raw, a fixed length of at least 1, or a non-empty
terminator. -/
def goodDelim : ReadDelimiter → Bool
  | ReadDelimiter.raw => true
  | ReadDelimiter.fixed 0 => false
  | ReadDelimiter.fixed (_ + 1) => true
  | ReadDelimiter.term [] => false
  | ReadDelimiter.term (_ :: _) => true
  | ReadDelimiter.invalid => false

/-- `t` occurs as a contiguous substring of `s`. -/
def occursIn (t s : List Char) : Prop := ∃ pre post, s = pre ++ t ++ post

/-! ### Concrete example streams used by witnesses and counterexamples -/

/-- A live socket bound to address `(1, 8080)` with peer `(2, 9)`. -/
def exSock : Sock := { sockname := (1, 8080), peername := (2, 9) }

/-- A Connected stream with empty buffers and the default handlers. -/
def exConn : Stream :=
  { _socket := some exSock, _connected := true, _connecting := false,
    _listening := false, _recv_buffer := [],
    read_delimiter := ReadDelimiter.raw, _send_buffer := [],
    remote_addr := none, local_addr := none,
    on_write := OnWriteCb.default, events := [] }

/-- A freshly created stream: open handle, no lifecycle flag set. -/
def exFresh : Stream := { exConn with _connected := false }

/-- A stream in the Connecting state. -/
def exConnecting : Stream := { exFresh with _connecting := true }

/-- A Listening stream. -/
def exListening : Stream := { exFresh with _listening := true }

/-- A Connected stream with two complete fixed-length-2 frames buffered. -/
def exTwoFrames : Stream :=
  { exConn with _recv_buffer := ['a', 'b', 'c', 'd'],
                read_delimiter := ReadDelimiter.fixed 2 }

/-- A Connected stream with a two-byte outbound backlog and `close`
installed as the `on_write` continuation (the state `end()` leaves). -/
def exBuf : Stream :=
  { exConn with _send_buffer := ['Q', 'R'], on_write := OnWriteCb.closeFn }

/-! ### Helper lemmas -/

theorem update_addr_frame (s : Stream) :
    (_update_addr s)._socket = s._socket ∧
    (_update_addr s)._connected = s._connected ∧
    (_update_addr s)._connecting = s._connecting ∧
    (_update_addr s)._listening = s._listening ∧
    (_update_addr s)._recv_buffer = s._recv_buffer ∧
    (_update_addr s)._send_buffer = s._send_buffer ∧
    (_update_addr s).read_delimiter = s.read_delimiter ∧
    (_update_addr s).on_write = s.on_write ∧
    (_update_addr s).events = s.events := by
  unfold _update_addr
  split
  · split <;> simp
  · split
    · split <;> simp
    · simp

theorem close_of_closed (s : Stream) (h : closed s = true) : close s = s := by
  unfold close
  simp [h]

theorem close_sock_none (s : Stream) (h : closed s = false) :
    (close s)._socket = none := by
  unfold close
  simp only [h, Bool.false_eq_true, if_false]
  exact ((update_addr_frame _).1)

theorem closed_close (s : Stream) : closed (close s) = true := by
  by_cases h : closed s = true
  · rw [close_of_closed s h]; exact h
  · have h' : closed s = false := by
      cases hc : closed s
      · rfl
      · exact absurd hc h
    simp [closed, close_sock_none s h']

theorem close_close (s : Stream) : close (close s) = close s :=
  close_of_closed _ (closed_close s)

theorem close_fields (s : Stream) (h : closed s = false) :
    (close s)._socket = none ∧ (close s)._connected = false ∧
    (close s)._connecting = false ∧ (close s)._listening = false ∧
    (close s)._recv_buffer = [] ∧ (close s)._send_buffer = [] ∧
    (close s).read_delimiter = ReadDelimiter.raw ∧
    (close s).remote_addr = none ∧ (close s).local_addr = none ∧
    (close s).on_write = s.on_write ∧
    (close s).events = s.events ++ [Event.onClose] := by
  unfold close
  simp only [h, Bool.false_eq_true, if_false]
  unfold _update_addr
  simp

theorem not_closed_iff (s : Stream) : closed s = false ↔ s._socket ≠ none := by
  cases h : s._socket <;> simp [closed, h]

/-! ### Claim theorems -/

/-- Claim C3: `close()` is idempotent — on an already-Closed stream it is
a pure no-op (state unchanged, nothing fired, nothing raised); iterating
`close` any number of times equals a single `close`, so `on_close` fires
exactly once across any sequence of `close()` calls; and the one
effective `close()` closes the handle, resets all lifecycle flags, clears
both buffers, resets the framing delimiter, refreshes both addresses to
absent, and fires `on_close` exactly once. -/
theorem close_idempotent_spec (s : Stream) (n : Nat) :
    (s._socket = none → close s = s) ∧
    (close^[n + 1] s = close s) ∧
    (s._socket ≠ none →
      (close s)._socket = none ∧ (close s)._connected = false ∧
      (close s)._connecting = false ∧ (close s)._listening = false ∧
      (close s)._recv_buffer = [] ∧ (close s)._send_buffer = [] ∧
      (close s).read_delimiter = ReadDelimiter.raw ∧
      (close s).remote_addr = none ∧ (close s).local_addr = none ∧
      (close s).events = s.events ++ [Event.onClose]) := by
  refine ⟨?_, ?_, ?_⟩
  · intro h
    exact close_of_closed s (by simp [closed, h])
  · induction n with
    | zero => rfl
    | succ m ih =>
      rw [Function.iterate_succ_apply', ih, close_close]
  · intro h
    have hf := close_fields s ((not_closed_iff s).mpr h)
    exact ⟨hf.1, hf.2.1, hf.2.2.1, hf.2.2.2.1, hf.2.2.2.2.1, hf.2.2.2.2.2.1,
      hf.2.2.2.2.2.2.1, hf.2.2.2.2.2.2.2.1, hf.2.2.2.2.2.2.2.2.1,
      hf.2.2.2.2.2.2.2.2.2.2⟩

/-- Witness for C3 at a concrete Connected stream, iterating `close`
three times: still exactly one `on_close` in the trace. -/
theorem close_idempotent_spec_witness :
    exConn._socket ≠ none ∧
    close^[3] exConn = close exConn ∧
    (close exConn).events = exConn.events ++ [Event.onClose] := by
  have h := close_idempotent_spec exConn 2
  exact ⟨by decide, h.2.1, (h.2.2 (by decide)).2.2.2.2.2.2.2.2.2⟩

/-- Claim C6: `write(data, buffer_data)` on a stream that is Closed or
whose `_connected` flag is not set (so also while Connecting) only logs a
warning: the state is otherwise untouched — no bytes reach the send
primitive, nothing is buffered, no exception is raised (the function is
total), and `on_write` does not fire. -/
theorem write_inactive_noop (s : Stream) (data : List Char) (bd : Bool)
    (res : Option Nat) (h : s._socket = none ∨ s._connected = false) :
    write s data bd res = { s with events := s.events ++ [Event.logWarning] } := by
  unfold write _send
  rcases h with h | h
  · simp [closed, h]
  · cases hs : s._socket with
    | none => simp [closed, hs]
    | some sk => simp [closed, hs, h]

/-- Witness for C6 at a Connecting stream and at a Closed stream. -/
theorem write_inactive_noop_witness :
    (exConnecting._socket = none ∨ exConnecting._connected = false) ∧
    write exConnecting ['a'] false (some 1) =
      { exConnecting with events := exConnecting.events ++ [Event.logWarning] } ∧
    write (close exConn) ['a'] true none =
      { close exConn with events := (close exConn).events ++ [Event.logWarning] } :=
  ⟨Or.inr rfl,
   write_inactive_noop exConnecting ['a'] false (some 1) (Or.inr rfl),
   write_inactive_noop (close exConn) ['a'] true none (Or.inl rfl)⟩

/-- Claim C5: on a non-Closed stream, `end()` with an empty outbound
buffer is exactly `close()`; with a non-empty outbound buffer it closes
nothing now and only installs `close` as the `on_write` continuation, so
the write-readiness event that drains the buffer to empty runs `close`
(firing `on_close` exactly once), while a partial drain leaves the stream
open with no `on_close`. -/
theorem end_defers_close (s : Stream) (k e : Nat) :
    (s._socket ≠ none → s._send_buffer = [] → end' s = close s) ∧
    (s._socket ≠ none → s._send_buffer ≠ [] →
      end' s = { s with on_write := OnWriteCb.closeFn }) ∧
    (s._socket ≠ none → s._connected = true → s._listening = false →
      s.on_write = OnWriteCb.closeFn → s._send_buffer ≠ [] →
      ((s._send_buffer.length ≤ k →
        ∃ s', _handle_write_event s e (some k) = Except.ok s' ∧
          s'._socket = none ∧
          s'.events = s.events ++ [Event.sent s._send_buffer, Event.onClose]) ∧
       (k < s._send_buffer.length →
        _handle_write_event s e (some k) = Except.ok
          { s with events := s.events ++ [Event.sent (s._send_buffer.take k)],
                   _send_buffer := s._send_buffer.drop k }))) := by
  refine ⟨?_, ?_, ?_⟩
  · intro h hbuf
    unfold end'
    simp [(not_closed_iff s).mpr h, hbuf]
  · intro h hbuf
    unfold end'
    simp [(not_closed_iff s).mpr h, hbuf]
  · intro hsock hconn hlist how hbuf
    unfold _handle_write_event
    simp only [hlist, Bool.false_eq_true, if_false, hconn, Bool.not_true, if_false,
      List.isEmpty_iff, hbuf, if_false]
    constructor
    · intro hk
      have hdrop : s._send_buffer.drop k = [] := List.drop_eq_nil_of_le hk
      have htake : s._send_buffer.take k = s._send_buffer := List.take_of_length_le hk
      simp only [hdrop, if_true, htake]
      set s2 : Stream :=
        { s with events := s.events ++ [Event.sent s._send_buffer],
                 _send_buffer := [] } with hs2
      have h2 : closed s2 = false := (not_closed_iff s2).mpr hsock
      refine ⟨close s2, ?_, ?_, ?_⟩
      · simp only [fireOnWrite, hs2, how]
        rw [hconn, hlist]
      · exact (close_fields s2 h2).1
      · rw [(close_fields s2 h2).2.2.2.2.2.2.2.2.2.2]
        simp [hs2]
    · intro hk
      have hne : ¬ s._send_buffer.drop k = [] := by
        intro hcon
        have := List.length_drop k s._send_buffer
        rw [hcon] at this
        simp at this
        omega
      simp [hne]

/-- Witness for C5: `end()` on `exBuf`'s pre-`end` state defers, then a
partial drain keeps the stream open and a full drain closes it with one
`on_close`. -/
theorem end_defers_close_witness :
    end' { exBuf with on_write := OnWriteCb.default } = exBuf ∧
    _handle_write_event exBuf 0 (some 1) = Except.ok
      { exBuf with events := exBuf.events ++ [Event.sent ['Q']],
                   _send_buffer := ['R'] } ∧
    (∃ s', _handle_write_event exBuf 0 (some 2) = Except.ok s' ∧
      s'._socket = none ∧
      s'.events = exBuf.events ++ [Event.sent ['Q', 'R'], Event.onClose]) := by
  refine ⟨?_, ?_, ?_⟩
  · have h := (end_defers_close { exBuf with on_write := OnWriteCb.default } 0 0).2.1
      (by decide) (by decide)
    rw [h]; decide
  · exact (((end_defers_close exBuf 1 0).2.2 (by decide) rfl rfl rfl
      (by decide)).2 (by decide))
  · exact (((end_defers_close exBuf 2 0).2.2 (by decide) rfl rfl rfl
      (by decide)).1 (by decide))

/-- Counterexample to C1 as stated: on a concrete Connecting stream with
pending error 111, handling write-readiness does not close the stream and
logs nothing — instead an exception carrying the error escapes the
handler unchanged (`Except.error` with the untouched stream state), so
the primitive-level failure does escape the Stream boundary. -/
theorem connect_err_escapes_cx :
    _handle_write_event exConnecting 111 (some 0) =
      Except.error (111, exConnecting) := rfl

/-- Claim C1 as amended: while not Connected, on write-readiness a
non-zero pending error makes the handler raise (the `socket.error` built
from the error code; the stream is not closed and nothing is logged by
the handler), and a zero pending error transitions the stream to
Connected and fires `on_connect`. -/
theorem connect_event_amended (s : Stream) (e : Nat) (r : Option Nat) :
    (e ≠ 0 → _handle_connect_event s e = Except.error (e, s)) ∧
    (s._listening = false → s._connected = false → e ≠ 0 →
      _handle_write_event s e r = Except.error (e, s)) ∧
    (e = 0 → ∃ s', _handle_connect_event s e = Except.ok s' ∧
      s'._connected = true ∧ s'._connecting = false ∧
      s'.events = s.events ++ [Event.onConnect]) := by
  refine ⟨?_, ?_, ?_⟩
  · intro he
    unfold _handle_connect_event
    simp [he]
  · intro hlist hconn he
    unfold _handle_write_event
    have h1 : _handle_connect_event s e = Except.error (e, s) := by
      unfold _handle_connect_event
      simp [he]
    simp [hlist, hconn, h1]
  · intro he
    subst he
    refine ⟨_, rfl, rfl, rfl, ?_⟩
    show (_update_addr s).events ++ [Event.onConnect] =
      s.events ++ [Event.onConnect]
    rw [(update_addr_frame s).2.2.2.2.2.2.2.2]

/-- Witness for C1's amended statement at concrete inputs: error 111
escapes, error 0 connects and fires `on_connect`. -/
theorem connect_event_amended_witness :
    _handle_connect_event exConnecting 111 = Except.error (111, exConnecting) ∧
    (∃ s', _handle_connect_event exConnecting 0 = Except.ok s' ∧
      s'._connected = true ∧ s'._connecting = false ∧
      s'.events = exConnecting.events ++ [Event.onConnect]) :=
  ⟨(connect_event_amended exConnecting 111 none).1 (by decide),
   (connect_event_amended exConnecting 0 none).2.2 rfl⟩

/-- Claim C7 (code bug): when the very first accept call of a pass
fails, the code logs, but then evaluates `sock.close()` with the local
`sock` still unbound; the resulting `NameError` is not a `socket.error`,
so it escapes the handler instead of aborting only this accept pass.
(When a failure follows a successful accept, the handle that gets the
best-effort close is the previously accepted — already delivered —
connection, not a partially-accepted one.)  This theorem evaluates the
model at the failing input: the loop outcome is the escaping-exception
case, not a normal return. -/
theorem accept_first_failure_escapes :
    _handle_accept_event exListening [AcceptRes.failure] =
      Except.error
        { exListening with events := exListening.events ++ [Event.logError] } ∧
    _handle_accept_event exListening
        [AcceptRes.success 5 (3, 4), AcceptRes.failure] =
      Except.ok
        { exListening with events := exListening.events ++
            [Event.onAccept 5 (3, 4), Event.logError, Event.sockClosed 5] } ∧
    _handle_accept_event exListening
        [AcceptRes.success 5 (3, 4), AcceptRes.success 6 (3, 5),
         AcceptRes.sentinel] =
      Except.ok
        { exListening with events := exListening.events ++
            [Event.onAccept 5 (3, 4), Event.onAccept 6 (3, 5)] } := by
  exact ⟨rfl, rfl, rfl⟩

/-- Claim C8 (code bug): both `listen()` and connect completion run
`_update_addr()` *before* setting the corresponding lifecycle flag, so
the refresh computes the not-applicable branch: after a successful
`listen()` on a socket bound to `(1, 8080)` the stream's `local_addr` is
absent rather than the bound address, and after a connect completes both
`local_addr` and `remote_addr` are absent rather than the socket's local
and peer addresses. -/
theorem addr_not_refreshed_cx :
    exFresh._socket = some exSock ∧ exSock.sockname = (1, 8080) ∧
    exSock.peername = (2, 9) ∧
    (listen exFresh true)._listening = true ∧
    (listen exFresh true).local_addr = none ∧
    (listen exFresh true).remote_addr = none ∧
    (_handle_connect_event exFresh 0).map
        (fun s => (s._connected, s.local_addr, s.remote_addr)) =
      Except.ok (true, none, none) := by
  exact ⟨rfl, rfl, rfl, rfl, rfl, rfl, rfl⟩

/-! ### Lemmas about substring search -/

theorem matchAt_iff (t : List Char) : ∀ s, matchAt t s = true ↔ ∃ r, s = t ++ r := by
  induction t with
  | nil =>
    intro s
    simp [matchAt]
  | cons a ts ih =>
    intro s
    cases s with
    | nil =>
      simp [matchAt]
    | cons b ss =>
      simp only [matchAt, Bool.and_eq_true, beq_iff_eq, ih ss, List.cons_append,
        List.cons.injEq]
      constructor
      · rintro ⟨hab, r, hr⟩
        exact ⟨r, hab.symm, hr⟩
      · rintro ⟨r, hba, hr⟩
        exact ⟨hba.symm, r, hr⟩

theorem strFind_some_spec (t : List Char) :
    ∀ s m, strFind t s = some m →
      m ≤ s.length ∧ matchAt t (s.drop m) = true ∧
      ∀ j, j < m → matchAt t (s.drop j) = false := by
  intro s
  induction s with
  | nil =>
    intro m h
    unfold strFind at h
    by_cases hm : matchAt t [] = true
    · rw [if_pos hm] at h
      cases h
      exact ⟨Nat.le_refl 0, hm, fun j hj => absurd hj (Nat.not_lt_zero j)⟩
    · rw [if_neg hm] at h
      cases h
  | cons c s ih =>
    intro m h
    unfold strFind at h
    by_cases hm : matchAt t (c :: s) = true
    · rw [if_pos hm] at h
      cases h
      exact ⟨Nat.zero_le _, hm, fun j hj => absurd hj (Nat.not_lt_zero j)⟩
    · rw [if_neg hm] at h
      obtain ⟨m', hm', hmm⟩ := Option.map_eq_some'.mp h
      subst hmm
      obtain ⟨h1, h2, h3⟩ := ih m' hm'
      refine ⟨by simpa using Nat.succ_le_succ h1, by simpa using h2, ?_⟩
      intro j hj
      cases j with
      | zero =>
        simpa using Bool.eq_false_iff.mpr hm
      | succ j' =>
        rw [List.drop_succ_cons]
        exact h3 j' (Nat.lt_of_succ_lt_succ hj)

theorem strFind_none_spec (t : List Char) :
    ∀ s, strFind t s = none → ∀ j, matchAt t (s.drop j) = false := by
  intro s
  induction s with
  | nil =>
    intro h j
    unfold strFind at h
    by_cases hm : matchAt t [] = true
    · rw [if_pos hm] at h; cases h
    · simpa using Bool.eq_false_iff.mpr hm
  | cons c s ih =>
    intro h j
    unfold strFind at h
    by_cases hm : matchAt t (c :: s) = true
    · rw [if_pos hm] at h; cases h
    · rw [if_neg hm] at h
      have h0 := Option.map_eq_none'.mp h
      cases j with
      | zero => simpa using Bool.eq_false_iff.mpr hm
      | succ j' =>
        rw [List.drop_succ_cons]
        exact ih h0 j'

theorem occursIn_of_matchAt (t s : List Char) (i : Nat)
    (h : matchAt t (s.drop i) = true) : occursIn t s := by
  obtain ⟨r, hr⟩ := (matchAt_iff t _).mp h
  refine ⟨s.take i, r, ?_⟩
  conv_lhs => rw [← List.take_append_drop i s]
  rw [hr, ← List.append_assoc]

theorem strFind_decomp (t s : List Char) (m : Nat) (h : strFind t s = some m) :
    s = s.take m ++ t ++ s.drop (m + t.length) := by
  obtain ⟨hm_le, hmatch, _⟩ := strFind_some_spec t s m h
  obtain ⟨r, hr⟩ := (matchAt_iff t _).mp hmatch
  have hrr : r = s.drop (m + t.length) := by
    have h1 : (s.drop m).drop t.length = r := by
      rw [hr]; exact List.drop_left t r
    rw [List.drop_drop] at h1
    exact h1.symm
  conv_lhs => rw [← List.take_append_drop m s]
  rw [hr, hrr, List.append_assoc]

theorem strFind_some_occursIn (t s : List Char) (m : Nat)
    (h : strFind t s = some m) : occursIn t s :=
  occursIn_of_matchAt t s m (strFind_some_spec t s m h).2.1

theorem strFind_first_no_occur (t s : List Char) (m : Nat)
    (ht : t ≠ []) (h : strFind t s = some m) : ¬ occursIn t (s.take m) := by
  obtain ⟨hm_le, hmatch, hfirst⟩ := strFind_some_spec t s m h
  rintro ⟨pre, post, hp⟩
  have hlen : pre.length + t.length + post.length = m := by
    have hc := congrArg List.length hp
    simp only [List.length_take, List.length_append] at hc
    omega
  have ht1 : 1 ≤ t.length := by
    cases t with
    | nil => exact absurd rfl ht
    | cons a ts => simp
  have hjm : pre.length < m := by omega
  have hdrop : s.drop pre.length = t ++ (post ++ s.drop m) := by
    conv_lhs => rw [← List.take_append_drop m s]
    rw [hp, List.append_assoc, List.append_assoc]
    exact List.drop_left pre _
  have hmm : matchAt t (s.drop pre.length) = true := by
    rw [hdrop]
    exact (matchAt_iff t _).mpr ⟨_, rfl⟩
  rw [hfirst pre.length hjm] at hmm
  cases hmm

theorem strFind_none_iff (t s : List Char) :
    strFind t s = none ↔ ¬ occursIn t s := by
  constructor
  · intro h hocc
    obtain ⟨pre, post, hp⟩ := hocc
    have hm : matchAt t (s.drop pre.length) = true := by
      rw [hp, List.append_assoc]
      rw [List.drop_left pre _]
      exact (matchAt_iff t _).mpr ⟨_, rfl⟩
    rw [strFind_none_spec t s h pre.length] at hm
    cases hm
  · intro hocc
    cases hsf : strFind t s with
    | none => rfl
    | some m => exact absurd (strFind_some_occursIn t s m hsf) hocc

/-- Claim C4: one iteration of the extraction loop — Raw delivers the
whole buffer and leaves it empty; FixedLength(n) with a short buffer
delivers nothing and keeps the buffer, and otherwise delivers exactly the
first n bytes (length n) retaining the remainder; Terminator(t) with no
occurrence of `t` (characterised exactly by the find primitive returning
no mark) delivers nothing and keeps the buffer, and otherwise delivers
the bytes preceding the first occurrence — in which `t` never occurs —
retaining the bytes following the terminator, which is stripped. -/
theorem extract_one_frame (buf t : List Char) (n m : Nat) :
    (extractOne ReadDelimiter.raw buf = some (buf, [])) ∧
    (buf.length < n → extractOne (ReadDelimiter.fixed n) buf = none) ∧
    (n ≤ buf.length →
      extractOne (ReadDelimiter.fixed n) buf = some (buf.take n, buf.drop n) ∧
      (buf.take n).length = n ∧ buf.take n ++ buf.drop n = buf) ∧
    (strFind t buf = none ↔ ¬ occursIn t buf) ∧
    (strFind t buf = none → extractOne (ReadDelimiter.term t) buf = none) ∧
    (strFind t buf = some m →
      extractOne (ReadDelimiter.term t) buf =
        some (buf.take m, buf.drop (m + t.length)) ∧
      buf = buf.take m ++ t ++ buf.drop (m + t.length) ∧
      (t ≠ [] → ¬ occursIn t (buf.take m))) := by
  refine ⟨rfl, ?_, ?_, strFind_none_iff t buf, ?_, ?_⟩
  · intro h
    simp [extractOne, h]
  · intro h
    refine ⟨by simp [extractOne, Nat.not_lt_of_le h], ?_, List.take_append_drop n buf⟩
    rw [List.length_take]
    omega
  · intro h
    simp [extractOne, h]
  · intro h
    refine ⟨by simp [extractOne, h], strFind_decomp t buf m h,
      fun ht => strFind_first_no_occur t buf m ht h⟩

/-- Witness for C4 at concrete buffers: a short fixed-length wait, a
fixed-length delivery, a terminator miss, and a terminator delivery. -/
theorem extract_one_frame_witness :
    extractOne (ReadDelimiter.fixed 4) ['a', 'b', 'c'] = none ∧
    extractOne (ReadDelimiter.fixed 2) ['a', 'b', 'c'] =
      some (['a', 'b'], ['c']) ∧
    extractOne (ReadDelimiter.term ['x']) ['a', 'b'] = none ∧
    extractOne (ReadDelimiter.term ['b']) ['a', 'b', 'c'] =
      some (['a'], ['c']) :=
  ⟨(extract_one_frame ['a', 'b', 'c'] ['x'] 4 0).2.1 (by decide),
   ((extract_one_frame ['a', 'b', 'c'] ['x'] 2 0).2.2.1 (by decide)).1,
   (extract_one_frame ['a', 'b'] ['x'] 0 0).2.2.2.2.1 (by decide),
   ((extract_one_frame ['a', 'b', 'c'] ['b'] 0 1).2.2.2.2.2 (by decide)).1⟩

/-- Claim C9: if the `on_read` callback invoked for a delivered message
closes the stream or takes it out of Connected, the extraction loop
terminates immediately after that delivery — exactly one message is
delivered in the pass, regardless of how much fuel remains and of any
further complete units still buffered. -/
theorem process_recv_stops_when_closed (cb : List Char → Stream → Stream)
    (fuel : Nat) (s : Stream) (data rest : List Char)
    (hbuf : s._recv_buffer.isEmpty = false)
    (hinv : s.read_delimiter ≠ ReadDelimiter.invalid)
    (hext : extractOne s.read_delimiter s._recv_buffer = some (data, rest))
    (hstop : (closed (cb data { s with _recv_buffer := rest })
        || !(cb data { s with _recv_buffer := rest })._connected) = true) :
    _process_recv_buffer cb (fuel + 1) s =
      (cb data { s with _recv_buffer := rest }, [data]) := by
  unfold _process_recv_buffer
  rw [if_neg (by simp [hbuf]), if_neg hinv, hext]
  simp only [hstop, if_true]

/-- Witness for C9: a callback that closes the stream stops the pass
after one delivery even though a second complete frame is buffered. -/
theorem process_recv_stops_when_closed_witness :
    _process_recv_buffer (fun _ s => close s) 9 exTwoFrames =
      (close { exTwoFrames with _recv_buffer := ['c', 'd'] }, [['a', 'b']]) :=
  process_recv_stops_when_closed (fun _ s => close s) 8 exTwoFrames
    ['a', 'b'] ['c', 'd'] rfl (by decide) rfl (by decide)

theorem extract_shrinks (d : ReadDelimiter) (buf data rest : List Char)
    (hgood : goodDelim d = true) (hne : buf.isEmpty = false)
    (hext : extractOne d buf = some (data, rest)) :
    rest.length < buf.length := by
  have hbuf : buf ≠ [] := by
    intro h; rw [h] at hne; cases hne
  have hpos : 0 < buf.length := List.length_pos.mpr hbuf
  cases d with
  | raw =>
    simp only [extractOne, Option.some.injEq, Prod.mk.injEq] at hext
    obtain ⟨rfl, rfl⟩ := hext
    simpa using hpos
  | fixed n =>
    cases n with
    | zero => cases hgood
    | succ n' =>
      simp only [extractOne] at hext
      by_cases hlt : buf.length < n' + 1
      · rw [if_pos hlt] at hext; cases hext
      · rw [if_neg hlt] at hext
        simp only [Option.some.injEq, Prod.mk.injEq] at hext
        obtain ⟨rfl, rfl⟩ := hext
        rw [List.length_drop]
        omega
  | term t =>
    cases t with
    | nil => cases hgood
    | cons a ts =>
      cases hsf : strFind (a :: ts) buf with
      | none => simp [extractOne, hsf] at hext
      | some mark =>
        simp only [extractOne, hsf, Option.some.injEq, Prod.mk.injEq] at hext
        obtain ⟨rfl, rfl⟩ := hext
        rw [List.length_drop]
        have h1 : 0 < mark + (a :: ts).length := by simp
        omega
  | invalid => cases hgood

theorem process_step (cb : List Char → Stream → Stream) (fuel : Nat) (s : Stream)
    (hbuf : s._recv_buffer.isEmpty = false)
    (hinv : s.read_delimiter ≠ ReadDelimiter.invalid) :
    _process_recv_buffer cb (fuel + 1) s =
      match extractOne s.read_delimiter s._recv_buffer with
      | none => (s, [])
      | some (data, rest) =>
        let s1 := cb data { s with _recv_buffer := rest }
        if closed s1 || !s1._connected then (s1, [data])
        else
          let r := _process_recv_buffer cb fuel s1
          (r.1, data :: r.2) := by
  conv_lhs => rw [_process_recv_buffer]
  rw [if_neg (by simp [hbuf]), if_neg hinv]

theorem process_recv_fuel_indep (cb : List Char → Stream → Stream)
    (hcb : ∀ d s', goodDelim s'.read_delimiter = true →
      (cb d s')._recv_buffer = s'._recv_buffer ∧
      goodDelim (cb d s').read_delimiter = true) :
    ∀ len : Nat, ∀ s : Stream, s._recv_buffer.length ≤ len →
      goodDelim s.read_delimiter = true →
      ∀ f1 f2 : Nat, s._recv_buffer.length < f1 → s._recv_buffer.length < f2 →
      _process_recv_buffer cb f1 s = _process_recv_buffer cb f2 s := by
  intro len
  induction len with
  | zero =>
    intro s hlen hgood f1 f2 h1 h2
    have hnil : s._recv_buffer = [] := List.length_eq_zero.mp (Nat.le_zero.mp hlen)
    obtain ⟨g1, rfl⟩ : ∃ g, f1 = g + 1 := ⟨f1 - 1, by omega⟩
    obtain ⟨g2, rfl⟩ : ∃ g, f2 = g + 1 := ⟨f2 - 1, by omega⟩
    unfold _process_recv_buffer
    simp [hnil]
  | succ n ih =>
    intro s hlen hgood f1 f2 h1 h2
    obtain ⟨g1, rfl⟩ : ∃ g, f1 = g + 1 := ⟨f1 - 1, by omega⟩
    obtain ⟨g2, rfl⟩ : ∃ g, f2 = g + 1 := ⟨f2 - 1, by omega⟩
    by_cases hbuf : s._recv_buffer.isEmpty = true
    · unfold _process_recv_buffer
      simp [hbuf]
    · have hbuf' : s._recv_buffer.isEmpty = false := Bool.eq_false_iff.mpr hbuf
      have hinv : s.read_delimiter ≠ ReadDelimiter.invalid := by
        intro h; rw [h] at hgood; cases hgood
      rw [process_step cb g1 s hbuf' hinv, process_step cb g2 s hbuf' hinv]
      cases hext : extractOne s.read_delimiter s._recv_buffer with
      | none => simp only [hext]
      | some pr =>
        obtain ⟨data, rest⟩ := pr
        have hshrink := extract_shrinks s.read_delimiter s._recv_buffer data rest
          hgood hbuf' hext
        have hcb' := hcb data { s with _recv_buffer := rest } (by simpa using hgood)
        simp only [hext]
        by_cases hstop :
            (closed (cb data { s with _recv_buffer := rest })
              || !(cb data { s with _recv_buffer := rest })._connected) = true
        · simp only [hstop, if_true]
        · have hstop' := Bool.eq_false_iff.mpr hstop
          simp only [hstop', Bool.false_eq_true, if_false]
          have hrec : _process_recv_buffer cb g1 (cb data { s with _recv_buffer := rest }) =
              _process_recv_buffer cb g2 (cb data { s with _recv_buffer := rest }) := by
            refine ih _ ?_ hcb'.2 g1 g2 ?_ ?_ <;> rw [hcb'.1] <;> simp <;> omega
          rw [hrec]

/-- Claim C10: over any finite recv buffer the extraction loop
terminates — its result is already stable at fuel (buffer length + 1) —
provided at every iteration the active delimiter is Raw, FixedLength(n)
with n ≥ 1, or a non-empty Terminator (`goodDelim`), and the delivery
callback leaves the recv buffer itself untouched.  (The spec's stated
delimiter domain also admits FixedLength(0) and an empty terminator,
which this precondition excludes.) -/
theorem process_recv_terminates (cb : List Char → Stream → Stream)
    (hcb : ∀ d s', goodDelim s'.read_delimiter = true →
      (cb d s')._recv_buffer = s'._recv_buffer ∧
      goodDelim (cb d s').read_delimiter = true)
    (s : Stream) (hgood : goodDelim s.read_delimiter = true)
    (fuel : Nat) (hfuel : s._recv_buffer.length < fuel) :
    _process_recv_buffer cb fuel s =
      _process_recv_buffer cb (s._recv_buffer.length + 1) s :=
  process_recv_fuel_indep cb hcb s._recv_buffer.length s (Nat.le_refl _) hgood
    fuel (s._recv_buffer.length + 1) hfuel (Nat.lt_succ_self _)

/-- Witness for C10 at a concrete two-frame buffer with the no-op
callback: any surplus fuel computes the same pass as fuel 5. -/
theorem process_recv_terminates_witness :
    _process_recv_buffer (fun _ s => s) 9 exTwoFrames =
      _process_recv_buffer (fun _ s => s) 5 exTwoFrames :=
  process_recv_terminates (fun _ s => s) (fun d s' hg => ⟨rfl, hg⟩)
    exTwoFrames rfl 9 (by decide)

/-! ### Lemmas for the outbound FIFO invariant -/

theorem sentConcat_append (a b : List Event) :
    sentConcat (a ++ b) = sentConcat a ++ sentConcat b := by
  induction a with
  | nil => rfl
  | cons ev a ih =>
    cases ev <;> simp [sentConcat, ih]

theorem write_goodW (s : Stream) (d : List Char) (bd : Bool) (k : Nat)
    (hg : GoodW s) :
    GoodW (write s d bd (some k)) ∧
    (write s d bd (some k))._socket = s._socket ∧
    sentConcat (write s d bd (some k)).events ++
        (write s d bd (some k))._send_buffer =
      sentConcat s.events ++ s._send_buffer ++ d := by
  obtain ⟨h1, h2, h3, h4⟩ := hg
  have hcl : closed s = false := by
    cases hs : s._socket with
    | none => rw [hs] at h1; cases h1
    | some sk => simp [closed, hs]
  unfold write _send
  rw [if_neg (by simp [hcl]), if_neg (by simp [h2])]
  by_cases hb : (bd || !s._send_buffer.isEmpty) = true
  · rw [if_pos (by simpa using hb)]
    exact ⟨⟨h1, h2, h3, h4⟩, rfl, by simp [List.append_assoc]⟩
  · rw [if_neg (by simpa using hb)]
    have hbnil : s._send_buffer = [] := by
      rcases Bool.or_eq_false_iff.mp (Bool.eq_false_iff.mpr hb) with ⟨hbd, hbe⟩
      have : s._send_buffer.isEmpty = true := by simpa using hbe
      exact List.isEmpty_iff.mp this
    by_cases hr : (d.drop k).isEmpty = true
    · have hdk : d.drop k = [] := List.isEmpty_iff.mp hr
      have htk : d.take k = d := by
        have h5 := List.take_append_drop k d
        rw [hdk, List.append_nil] at h5
        exact h5
      refine ⟨?_, ?_, ?_⟩ <;>
        simp [hr, fireOnWrite, h4, GoodW, h1, h2, h3, hbnil,
          sentConcat_append, sentConcat, htk]
    · have hr' : (d.drop k).isEmpty = false := Bool.eq_false_iff.mpr hr
      refine ⟨?_, ?_, ?_⟩ <;>
        simp [hr', GoodW, h1, h2, h3, h4, hbnil,
          sentConcat_append, sentConcat, List.append_assoc]

theorem wevent_goodW (s : Stream) (e k : Nat) (hg : GoodW s) :
    ∃ s', _handle_write_event s e (some k) = Except.ok s' ∧ GoodW s' ∧
      s'._socket = s._socket ∧
      sentConcat s'.events ++ s'._send_buffer =
        sentConcat s.events ++ s._send_buffer := by
  obtain ⟨h1, h2, h3, h4⟩ := hg
  unfold _handle_write_event
  rw [if_neg (by simp [h3])]
  simp only [h2, Bool.not_true, Bool.false_eq_true, if_false]
  by_cases hbuf : s._send_buffer.isEmpty = true
  · refine ⟨s, ?_, ⟨h1, h2, h3, h4⟩, rfl, rfl⟩
    simp [hbuf]
  · have hbuf' : s._send_buffer.isEmpty = false := Bool.eq_false_iff.mpr hbuf
    by_cases hr : (s._send_buffer.drop k).isEmpty = true
    · have hdk : s._send_buffer.drop k = [] := List.isEmpty_iff.mp hr
      have htk : s._send_buffer.take k = s._send_buffer := by
        have h5 := List.take_append_drop k s._send_buffer
        rw [hdk, List.append_nil] at h5
        exact h5
      refine Exists.intro ({ s with events := s.events ++ [Event.sent s._send_buffer, Event.onWriteFired], _send_buffer := [] }) ⟨?_, ?_, ?_, ?_⟩
      · simp [hbuf', hdk, htk, fireOnWrite, h4, h2]
      · exact ⟨h1, h2, h3, h4⟩
      · rfl
      · simp [sentConcat_append, sentConcat]
    · have hr' : (s._send_buffer.drop k).isEmpty = false := Bool.eq_false_iff.mpr hr
      refine Exists.intro ({ s with events := s.events ++ [Event.sent (s._send_buffer.take k)], _send_buffer := s._send_buffer.drop k }) ⟨?_, ?_, ?_, ?_⟩
      · simp [hbuf', hr', h2]
      · exact ⟨h1, h2, h3, h4⟩
      · rfl
      · simp [sentConcat_append, sentConcat, List.append_assoc]

/-- Claim C2: for a Connected stream (with the default `on_write`
handler), over any sequence of `write` calls and write-readiness flushes
in which the send primitive succeeds, no exception escapes and the bytes
accepted by the send primitive followed by the remaining outbound buffer
always equal the previously sent-plus-buffered bytes followed by the
concatenation of all written data in call order — outbound bytes are
never reordered, never duplicated, and buffered writes append strictly
after any already-buffered bytes. -/
theorem wrun_fifo (ops : List WOp) : ∀ s : Stream, GoodW s →
    (∀ op ∈ ops, op.sendOk) →
    ∃ s', wrun s ops = Except.ok s' ∧ GoodW s' ∧
      sentConcat s'.events ++ s'._send_buffer =
        sentConcat s.events ++ s._send_buffer ++ writtenOf ops := by
  induction ops with
  | nil =>
    intro s hg _
    exact ⟨s, rfl, hg, by simp [writtenOf]⟩
  | cons op ops ih =>
    intro s hg hok
    have hops : ∀ op ∈ ops, op.sendOk := fun o ho => hok o (List.mem_cons_of_mem op ho)
    cases op with
    | write d bd r =>
      obtain ⟨k, rfl⟩ : ∃ k, r = some k := by
        have hs := hok _ (List.mem_cons_self _ _)
        exact Option.isSome_iff_exists.mp hs
      obtain ⟨hg', hsock, heq⟩ := write_goodW s d bd k hg
      obtain ⟨s', hrun, hg2, heq2⟩ := ih (write s d bd (some k)) hg' hops
      refine ⟨s', ?_, hg2, ?_⟩
      · simpa [wrun, wstep] using hrun
      · rw [heq2, heq, writtenOf]
        simp [List.append_assoc]
    | wevent e r =>
      obtain ⟨k, rfl⟩ : ∃ k, r = some k := by
        have hs := hok _ (List.mem_cons_self _ _)
        exact Option.isSome_iff_exists.mp hs
      obtain ⟨s1, hob, hg1, hsock1, heq1⟩ := wevent_goodW s e k hg
      obtain ⟨s', hrun, hg2, heq2⟩ := ih s1 hg1 hops
      refine ⟨s', ?_, hg2, ?_⟩
      · simp only [wrun, wstep, hob]
        exact hrun
      · rw [heq2, heq1, writtenOf]

/-- Witness for C2: write "AB" (primitive accepts 1 byte), write "CD"
(backlog exists, so it buffers), then one flush accepting everything —
the accepted bytes are exactly "ABCD" in order with an empty buffer. -/
theorem wrun_fifo_witness :
    GoodW exConn ∧
    (∃ s', wrun exConn
        [WOp.write ['A', 'B'] false (some 1), WOp.write ['C', 'D'] false (some 7),
         WOp.wevent 0 (some 9)] = Except.ok s' ∧ GoodW s' ∧
      sentConcat s'.events ++ s'._send_buffer =
        sentConcat exConn.events ++ exConn._send_buffer ++
          writtenOf [WOp.write ['A', 'B'] false (some 1),
            WOp.write ['C', 'D'] false (some 7), WOp.wevent 0 (some 9)]) :=
  ⟨⟨rfl, rfl, rfl, rfl⟩,
   wrun_fifo
     [WOp.write ['A', 'B'] false (some 1), WOp.write ['C', 'D'] false (some 7),
      WOp.wevent 0 (some 9)]
     exConn ⟨rfl, rfl, rfl, rfl⟩ (by intro op ho; fin_cases ho <;> rfl)⟩

end Pants
